import Mathlib

/-!
Shallow embedding of ganbarodigital/ts-lib-value-objects.

Conventions used throughout:

* A TypeScript computation that can `throw` is modelled as `Except E α`,
  where `E` is the type of thrown error values and `Except.error e`
  models a raised (thrown) error propagating out of the call.
* The TypeScript `never` return type is modelled as `Empty`: a function
  whose declared return type is `never` can only leave by throwing, so
  its model returns `Except E Empty`, whose only inhabitants are
  `Except.error` values.
* Type-level-only constructs (`Branded`, `Flavoured`, the `as BR` cast in
  the factories) have no runtime footprint, so the runtime output type of
  a factory over input type `BI` is `BI` itself.
* JavaScript symbols (`Symbol("...")`) are modelled by their description
  string.
-/

namespace TsValueObjects

/-- Model of a JavaScript symbol: its description string. -/
abbrev JsSymbol : Type := String

/-- Model of `OnError<EX, R>` from the ts-on-error package, as used by this
repository (handlers in the repository have the shape
`(reason: symbol, description: string, extra: EX) => R`). The handler
either throws (`Except.error`) or returns an `R`. For `R = Empty`
(TypeScript `never`) a type-correct handler can only throw. -/
abbrev OnError (EX R E : Type) : Type := JsSymbol → String → EX → Except E R

/-- Model of `DataGuarantee<T, EX>` (src/src/V1/types, described in
src/unnamed/part_001): `(input: T, onError: OnError<EX, never>) => void`.
It returns normally (`Except.ok ()`) when the input meets the contract,
and otherwise calls the supplied OnError handler, whose raise propagates
out as `Except.error`. -/
abbrev DataGuarantee (T EX E : Type) : Type := T → OnError EX Empty E → Except E Unit

/-- Model of `DataCoercion<T, GR extends T, EX>` from src/unnamed/part_001:
`(input: T, onError: OnError<EX, T>) => GR`. At runtime every value of
`GR` is a value of `T` (the factories instantiate `GR := BI`), so the
model returns `Except E T`. -/
abbrev DataCoercion (T EX E : Type) : Type := T → OnError EX T E → Except E T

/-- Model of `makeRefinedTypeFactory` (src/src/V1/nominals/Factory.ts,
lines 79-94). The returned constructor takes an input and an optional
error handler; it picks `onError ?? defaultOnError`, runs the
DataGuarantee (whose raise, if any, propagates), and then returns
`(input as unknown) as BR`. The cast is erased at runtime, so the
constructor's runtime result is the input value itself. -/
def makeRefinedTypeFactory {BI EX E : Type} (mustBe : DataGuarantee BI EX E)
    (defaultOnError : OnError EX Empty E) :
    BI → Option (OnError EX Empty E) → Except E BI :=
  fun input onErrOpt =>
    let onError : OnError EX Empty E := onErrOpt.getD defaultOnError
    match mustBe input onError with
    | Except.error e => Except.error e
    | Except.ok _ => Except.ok input

/-- Model of `makeCoercedTypeFactory` (src/src/V1/nominals/Factory.ts,
lines 123-138). As `makeRefinedTypeFactory`, but the contract function is
a DataCoercion and its return value replaces the input:
`input = mustBe(input, onError); return (input as unknown) as BR`. -/
def makeCoercedTypeFactory {BI EX E : Type} (mustBe : DataCoercion BI EX E)
    (defaultOnError : OnError EX BI E) :
    BI → Option (OnError EX BI E) → Except E BI :=
  fun input onErrOpt =>
    let onError : OnError EX BI E := onErrOpt.getD defaultOnError
    match mustBe input onError with
    | Except.error e => Except.error e
    | Except.ok coerced => Except.ok coerced

/-- A DataGuarantee built from a validation rule, in the sense of the
spec's data model ("a pure function mapping a candidate value to
pass/fail") and with the shape every guarantee in the repository has
(e.g. `neverAdultAge` in src/unnamed/part_001: if the rule fails, call
`onError(Symbol(reason), description, extra)`; the handler can only
raise, which `Empty.elim` records). -/
def guaranteeOfRule {T EX E : Type} (rule : T → Bool) (reason : JsSymbol)
    (descr : String) (errOf : T → EX) : DataGuarantee T EX E :=
  fun input onError =>
    if rule input then Except.ok ()
    else (onError reason descr (errOf input)).map Empty.elim

/-- A DataCoercion built from a validation rule: if the rule passes, the
given data is returned; otherwise the OnError handler is called and its
result (a raise, or a substitute value) becomes the result, following the
DataCoercion documentation in src/unnamed/part_001. -/
def coercionOfRule {T EX E : Type} (rule : T → Bool) (reason : JsSymbol)
    (descr : String) (errOf : T → EX) : DataCoercion T EX E :=
  fun input onError =>
    if rule input then Except.ok input
    else onError reason descr (errOf input)

/-- Model of the `RefinedType<T, EX>` wrapper class
(src/src/V1/refinement/RefinedType.ts): it stores one protected value. -/
structure RefinedType (T : Type) where
  value : T

/-- `RefinedType.valueOf()` (lines 95-97): returns the wrapped value,
not a clone. -/
def RefinedType.valueOf {T : Type} (r : RefinedType T) : T := r.value

/-- Model of the protected `RefinedType` constructor (lines 77-87): run
`mustBe(input, onError)` first (a raise propagates and no object is
produced), then store the input as the wrapped value. -/
def RefinedType.make {T EX E : Type} (input : T) (mustBe : DataGuarantee T EX E)
    (onError : OnError EX Empty E) : Except E (RefinedType T) :=
  match mustBe input onError with
  | Except.error e => Except.error e
  | Except.ok _ => Except.ok ⟨input⟩

/-- Model of the v2 `ValueObject<T>` class
(src/src/v2/types/ValueObject.ts): a readonly stored value. -/
structure ValueObject (T : Type) where
  value : T

/-- `ValueObject.valueOf()` (lines 79-81): returns the wrapped value. -/
def ValueObject.valueOf {T : Type} (v : ValueObject T) : T := v.value

/-- `ValueObject.isValue()` (lines 88-90): always returns true. -/
def ValueObject.isValue {T : Type} (_ : ValueObject T) : Bool := true

/-- The public operations of `ValueObject`. -/
inductive ValueObjectOp where
  | valueOf
  | isValue

/-- One method call on a `ValueObject`: the result paired with the state
of the object after the call. Each method body only reads `this.value`
and performs no assignment, so the post-state is the pre-state. -/
def ValueObject.invoke {T : Type} (s : ValueObject T) :
    ValueObjectOp → (T ⊕ Bool) × ValueObject T
  | ValueObjectOp.valueOf => (Sum.inl s.valueOf, s)
  | ValueObjectOp.isValue => (Sum.inr s.isValue, s)

/-- Run a sequence of method calls on a `ValueObject`, returning the final
state of the object. -/
def ValueObject.runOps {T : Type} (s : ValueObject T) :
    List ValueObjectOp → ValueObject T
  | [] => s
  | op :: ops => ((s.invoke op).2).runOps ops

/-- Model of the abstract v2 `EntityObject<ID, T>` class
(src/unnamed/part_003): a readonly stored value plus the child class's
implementation of the abstract `idOf(): ID`, modelled as a pure function
of the wrapped record (as in the repository's `ExampleEntity`, whose
`idOf()` returns `this.value.id`). -/
structure EntityObject (ID T : Type) where
  value : T
  idFrom : T → ID

/-- `EntityObject.valueOf()` (src/unnamed/part_003, lines 81-83): returns
the wrapped value. -/
def EntityObject.valueOf {ID T : Type} (e : EntityObject ID T) : T := e.value

/-- `EntityObject.idOf()`: the child-class implementation applied to the
wrapped record. -/
def EntityObject.idOf {ID T : Type} (e : EntityObject ID T) : ID := e.idFrom e.value

/-- `EntityObject.isEntity()` (src/unnamed/part_003, lines 91-93): always
returns true. -/
def EntityObject.isEntity {ID T : Type} (_ : EntityObject ID T) : Bool := true

/-- The public operations of `EntityObject`. -/
inductive EntityObjectOp where
  | valueOf
  | idOf
  | isEntity

/-- One method call on an `EntityObject`: the result paired with the state
after the call. Each method body only reads, so the post-state is the
pre-state. -/
def EntityObject.invoke {ID T : Type} (s : EntityObject ID T) :
    EntityObjectOp → ((T ⊕ ID) ⊕ Bool) × EntityObject ID T
  | EntityObjectOp.valueOf => (Sum.inl (Sum.inl s.valueOf), s)
  | EntityObjectOp.idOf => (Sum.inl (Sum.inr s.idOf), s)
  | EntityObjectOp.isEntity => (Sum.inr s.isEntity, s)

/-- Run a sequence of method calls on an `EntityObject`, returning the
final state of the object. -/
def EntityObject.runOps {ID T : Type} (s : EntityObject ID T) :
    List EntityObjectOp → EntityObject ID T
  | [] => s
  | op :: ops => ((s.invoke op).2).runOps ops

/-- The public operations of an already-constructed `RefinedType`. -/
inductive RefinedTypeOp where
  | valueOf

/-- One method call on a `RefinedType`: `valueOf()` reads `this.value` and
assigns nothing. -/
def RefinedType.invoke {T : Type} (s : RefinedType T) :
    RefinedTypeOp → T × RefinedType T
  | RefinedTypeOp.valueOf => (s.valueOf, s)

/-- Run a sequence of method calls on a `RefinedType`. -/
def RefinedType.runOps {T : Type} (s : RefinedType T) :
    List RefinedTypeOp → RefinedType T
  | [] => s
  | op :: ops => ((s.invoke op).2).runOps ops

/-- The `ExampleRecord` interface of the EntityObject unit test
(src/unnamed/part_004, lines 39-42). -/
structure ExampleRecord where
  id : Int
  field1 : String

/-- `ExampleEntity.from()` of the EntityObject unit test
(src/unnamed/part_004, lines 44-52): wraps the record; its `idOf()`
returns `this.value.id`. -/
def ExampleEntity.fromRecord (input : ExampleRecord) : EntityObject Int ExampleRecord :=
  ⟨input, fun v => v.id⟩

/-- Result type of `Symbol.toPrimitive`: a JavaScript string or number
(the number type is modelled as `Int`; nothing in the embedded code
depends on fractional values). -/
inductive JsPrimitive where
  | str : String → JsPrimitive
  | num : Int → JsPrimitive
deriving DecidableEq

/-- Model of `CoercedNumber` (src/src/V1/coercion/CoercedNumber.ts): the
wrapped number stored in its `value` field, inherited from the
`CoercedType` base class. -/
structure CoercedNumber where
  value : Int

/-- `CoercedNumber[Symbol.toPrimitive]` (src/src/V1/coercion/CoercedNumber.ts,
lines 52-58): if the hint is "string", return `this.value.toString()`
(the decimal rendering); otherwise return `this.value`. -/
def CoercedNumber.toPrimitive (c : CoercedNumber) (hint : String) : JsPrimitive :=
  if hint = "string" then JsPrimitive.str (toString c.value)
  else JsPrimitive.num c.value

/-- One `Symbol.toPrimitive` call on a `CoercedNumber` with the given
hint: the result paired with the state after the call. The method body
only reads `this.value`. -/
def CoercedNumber.invoke (s : CoercedNumber) (hint : String) :
    JsPrimitive × CoercedNumber :=
  (s.toPrimitive hint, s)

/-- Run a sequence of `Symbol.toPrimitive` calls on a `CoercedNumber`. -/
def CoercedNumber.runOps (s : CoercedNumber) : List String → CoercedNumber
  | [] => s
  | hint :: hints => ((s.invoke hint).2).runOps hints

/-! ## Helper lemmas -/

theorem ValueObject.runOps_preserves_state {T : Type} (s : ValueObject T)
    (ops : List ValueObjectOp) : s.runOps ops = s := by
  induction ops with
  | nil => rfl
  | cons op ops ih => cases op <;> simpa [ValueObject.runOps, ValueObject.invoke] using ih

theorem EntityObject.runOps_fixes_state {ID T : Type} (s : EntityObject ID T)
    (ops : List EntityObjectOp) : s.runOps ops = s := by
  induction ops with
  | nil => rfl
  | cons op ops ih => cases op <;> simpa [EntityObject.runOps, EntityObject.invoke] using ih

theorem RefinedType.runOps_keeps_state {T : Type} (s : RefinedType T)
    (ops : List RefinedTypeOp) : s.runOps ops = s := by
  induction ops with
  | nil => rfl
  | cons op ops ih => cases op; simpa [RefinedType.runOps, RefinedType.invoke] using ih

theorem CoercedNumber.runOps_state_id (s : CoercedNumber) (hints : List String) :
    s.runOps hints = s := by
  induction hints with
  | nil => rfl
  | cons hint hints ih => simpa [CoercedNumber.runOps, CoercedNumber.invoke] using ih

/-! ## Claim theorems -/

/-- C1: for every input on which the validation rule passes (equivalently,
on which the DataGuarantee returns without invoking the error handler),
the constructor returned by `makeRefinedTypeFactory` returns that very
input unchanged at runtime; the refinement is only a type reinterpretation. -/
theorem C1_refined_factory_returns_input_on_pass {BI EX E : Type}
    (mustBe : DataGuarantee BI EX E) (rule : BI → Bool) (reason : JsSymbol)
    (descr : String) (errOf : BI → EX) (dflt : OnError EX Empty E)
    (onErrOpt : Option (OnError EX Empty E)) (input : BI)
    (hok : mustBe input (onErrOpt.getD dflt) = Except.ok ())
    (hpass : rule input = true) :
    makeRefinedTypeFactory mustBe dflt input onErrOpt = Except.ok input ∧
    makeRefinedTypeFactory (guaranteeOfRule rule reason descr errOf) dflt input onErrOpt
      = Except.ok input := by
  constructor
  · simp [makeRefinedTypeFactory, hok]
  · simp [makeRefinedTypeFactory, guaranteeOfRule, hpass]

theorem C1_witness :
    @makeRefinedTypeFactory Nat Unit String (fun _ _ => Except.ok ())
        (fun _ _ _ => Except.error "fail") 3 none = Except.ok 3 ∧
    @makeRefinedTypeFactory Nat Unit String
        (guaranteeOfRule (fun n => decide (n < 10)) "reason" "descr" (fun _ => ()))
        (fun _ _ _ => Except.error "fail") 3 none = Except.ok 3 :=
  C1_refined_factory_returns_input_on_pass (fun _ _ => Except.ok ())
    (fun n => decide (n < 10)) "reason" "descr" (fun _ => ())
    (fun _ _ _ => Except.error "fail") none 3 rfl (by decide)

/-- C2: on inputs failing the validation rule the refined constructor does
not return normally (the handler, typed to return `never`, can only
raise); hence whenever the constructor does return a value, that value is
the input and it passed the validation rule. -/
theorem C2_refined_factory_returns_only_validated {BI EX E : Type}
    (rule : BI → Bool) (reason : JsSymbol) (descr : String) (errOf : BI → EX)
    (dflt : OnError EX Empty E) (onErrOpt : Option (OnError EX Empty E))
    (input v : BI)
    (hret : makeRefinedTypeFactory (guaranteeOfRule rule reason descr errOf)
      dflt input onErrOpt = Except.ok v) :
    v = input ∧ rule input = true := by
  by_cases h : rule input = true
  · refine ⟨?_, h⟩
    simp [makeRefinedTypeFactory, guaranteeOfRule, h] at hret
    exact hret.symm
  · exfalso
    rw [Bool.not_eq_true] at h
    simp only [makeRefinedTypeFactory, guaranteeOfRule, h, if_false, Bool.false_eq_true] at hret
    cases hcall : (onErrOpt.getD dflt) reason descr (errOf input) with
    | error e => rw [hcall] at hret; simp [Except.map] at hret
    | ok x => exact x.elim

theorem C2_witness : (3 : Nat) = 3 ∧ (fun n : Nat => decide (n < 10)) 3 = true :=
  C2_refined_factory_returns_only_validated (fun n => decide (n < 10)) "reason"
    "descr" (fun _ => ()) (fun _ _ _ => Except.error "fail") none 3 3 rfl

/-- C3: on inputs failing the validation rule, the constructors returned
by `makeRefinedTypeFactory` and `makeCoercedTypeFactory` invoke exactly
the default error handler when no onError argument is passed, and exactly
the caller's override when one is: the call's outcome is precisely the
outcome of the chosen handler (for the refined factory, its raise). -/
theorem C3_factories_invoke_chosen_handler {BI EX E : Type}
    (rule : BI → Bool) (reason : JsSymbol) (descr : String) (errOf : BI → EX)
    (dflt ovr : OnError EX Empty E) (cdflt covr : OnError EX BI E) (input : BI)
    (hfail : rule input = false) :
    makeRefinedTypeFactory (guaranteeOfRule rule reason descr errOf) dflt input none
      = (dflt reason descr (errOf input)).map Empty.elim ∧
    makeRefinedTypeFactory (guaranteeOfRule rule reason descr errOf) dflt input (some ovr)
      = (ovr reason descr (errOf input)).map Empty.elim ∧
    makeCoercedTypeFactory (coercionOfRule rule reason descr errOf) cdflt input none
      = cdflt reason descr (errOf input) ∧
    makeCoercedTypeFactory (coercionOfRule rule reason descr errOf) cdflt input (some covr)
      = covr reason descr (errOf input) := by
  refine ⟨?_, ?_, ?_, ?_⟩
  · simp only [makeRefinedTypeFactory, guaranteeOfRule, hfail, Option.getD_none,
      Bool.false_eq_true, if_false]
    cases dflt reason descr (errOf input) with
    | error e => rfl
    | ok x => exact x.elim
  · simp only [makeRefinedTypeFactory, guaranteeOfRule, hfail, Option.getD_some,
      Bool.false_eq_true, if_false]
    cases ovr reason descr (errOf input) with
    | error e => rfl
    | ok x => exact x.elim
  · simp only [makeCoercedTypeFactory, coercionOfRule, hfail, Option.getD_none,
      Bool.false_eq_true, if_false]
    cases cdflt reason descr (errOf input) with
    | error e => rfl
    | ok x => rfl
  · simp only [makeCoercedTypeFactory, coercionOfRule, hfail, Option.getD_some,
      Bool.false_eq_true, if_false]
    cases covr reason descr (errOf input) with
    | error e => rfl
    | ok x => rfl

theorem C3_witness :
    @makeRefinedTypeFactory Nat Unit String
        (guaranteeOfRule (fun n => decide (n < 10)) "reason" "descr" (fun _ => ()))
        (fun _ _ _ => Except.error "default") 42 none
      = ((fun (_ : JsSymbol) (_ : String) (_ : Unit) =>
          (Except.error "default" : Except String Empty)) "reason" "descr" ()).map Empty.elim ∧
    @makeRefinedTypeFactory Nat Unit String
        (guaranteeOfRule (fun n => decide (n < 10)) "reason" "descr" (fun _ => ()))
        (fun _ _ _ => Except.error "default") 42
        (some (fun _ _ _ => Except.error "override"))
      = ((fun (_ : JsSymbol) (_ : String) (_ : Unit) =>
          (Except.error "override" : Except String Empty)) "reason" "descr" ()).map Empty.elim ∧
    @makeCoercedTypeFactory Nat Unit String
        (coercionOfRule (fun n => decide (n < 10)) "reason" "descr" (fun _ => ()))
        (fun _ _ _ => Except.error "cdefault") 42 none
      = (fun (_ : JsSymbol) (_ : String) (_ : Unit) =>
          (Except.error "cdefault" : Except String Nat)) "reason" "descr" () ∧
    @makeCoercedTypeFactory Nat Unit String
        (coercionOfRule (fun n => decide (n < 10)) "reason" "descr" (fun _ => ()))
        (fun _ _ _ => Except.error "cdefault") 42
        (some (fun _ _ _ => Except.ok 5))
      = (fun (_ : JsSymbol) (_ : String) (_ : Unit) =>
          (Except.ok 5 : Except String Nat)) "reason" "descr" () :=
  C3_factories_invoke_chosen_handler (fun n => decide (n < 10)) "reason" "descr"
    (fun _ => ()) (fun _ _ _ => Except.error "default")
    (fun _ _ _ => Except.error "override") (fun _ _ _ => Except.error "cdefault")
    (fun _ _ _ => Except.ok 5) 42 (by decide)

/-- C4: on an input failing the validation rule, when the error handler
returns a substitute value satisfying the constraint, the constructor
returned by `makeCoercedTypeFactory` returns that substitute value, which
is necessarily different from the original failing input. -/
theorem C4_coerced_factory_returns_substitute {BI EX E : Type}
    (rule : BI → Bool) (reason : JsSymbol) (descr : String) (errOf : BI → EX)
    (cdflt : OnError EX BI E) (ovr : OnError EX BI E) (input subst : BI)
    (hfail : rule input = false)
    (hsub : ovr reason descr (errOf input) = Except.ok subst)
    (hgood : rule subst = true) :
    makeCoercedTypeFactory (coercionOfRule rule reason descr errOf) cdflt input (some ovr)
      = Except.ok subst ∧ subst ≠ input := by
  constructor
  · simp [makeCoercedTypeFactory, coercionOfRule, hfail, hsub]
  · intro hcontra
    rw [hcontra, hfail] at hgood
    exact Bool.false_ne_true hgood

theorem C4_witness :
    @makeCoercedTypeFactory Nat Unit String
        (coercionOfRule (fun n => decide (n < 10)) "reason" "descr" (fun _ => ()))
        (fun _ _ _ => Except.error "cdefault") 42 (some (fun _ _ _ => Except.ok 5))
      = Except.ok 5 ∧ (5 : Nat) ≠ 42 :=
  C4_coerced_factory_returns_substitute (fun n => decide (n < 10)) "reason" "descr"
    (fun _ => ()) (fun _ _ _ => Except.error "cdefault") (fun _ _ _ => Except.ok 5)
    42 5 (by decide) rfl (by decide)

/-- C5: every wrapped value is immutable once constructed: for every
`ValueObject`, `EntityObject` or `RefinedType` instance (and every
`CoercedNumber` instance), no sequence of operations of the class
(`valueOf`, `isValue`, `isEntity`, `idOf`, `Symbol.toPrimitive`) changes
the stored value, so `valueOf()` returns the same value after any
sequence of operations as immediately after construction. -/
theorem C5_wrappers_immutable {T ID : Type} (v : T) (idf : T → ID) (n : Int)
    (vops : List ValueObjectOp) (eops : List EntityObjectOp)
    (rops : List RefinedTypeOp) (hints : List String) :
    (ValueObject.runOps ⟨v⟩ vops).valueOf = v ∧
    (EntityObject.runOps ⟨v, idf⟩ eops).valueOf = v ∧
    (RefinedType.runOps ⟨v⟩ rops).valueOf = v ∧
    (CoercedNumber.runOps ⟨n⟩ hints).value = n := by
  refine ⟨?_, ?_, ?_, ?_⟩
  · rw [ValueObject.runOps_preserves_state]
    rfl
  · rw [EntityObject.runOps_fixes_state]
    rfl
  · rw [RefinedType.runOps_keeps_state]
    rfl
  · rw [CoercedNumber.runOps_state_id]

/-- C6: the `ValueObject` constructed from a value `v` holds exactly that
value: `valueOf()` returns `v` itself and `isValue()` returns true. -/
theorem C6_value_object_holds_value {T : Type} (v : T) :
    (ValueObject.mk v).valueOf = v ∧ (ValueObject.mk v).isValue = true :=
  ⟨rfl, rfl⟩

/-- C7: `EntityObject` extends the value wrapper with identity extraction:
for every record it wraps, `valueOf()` returns the record unchanged,
`isEntity()` returns true, and `idOf()` returns the identity computed from
the wrapped record; in particular the test's `ExampleEntity` returns the
record's `id` field. -/
theorem C7_entity_object_extends_value_wrapper {ID T : Type} (v : T)
    (idf : T → ID) (r : ExampleRecord) :
    (EntityObject.mk v idf).valueOf = v ∧
    (EntityObject.mk v idf).isEntity = true ∧
    (EntityObject.mk v idf).idOf = idf v ∧
    (ExampleEntity.fromRecord r).valueOf = r ∧
    (ExampleEntity.fromRecord r).idOf = r.id :=
  ⟨rfl, rfl, rfl, rfl, rfl⟩

/-- C8: constraint violations are propagated only via the injected
onError callback, never via an exception type hard-coded in the library:
whenever a constructor returned by `makeRefinedTypeFactory` or
`makeCoercedTypeFactory`, or the `RefinedType` constructor, ends in a
raised error, the input failed the validation rule and the raised error
is exactly the one produced by the chosen (supplied or default) handler. -/
theorem C8_errors_come_only_from_handler {BI EX E : Type}
    (rule : BI → Bool) (reason : JsSymbol) (descr : String) (errOf : BI → EX)
    (dflt : OnError EX Empty E) (onErrOpt : Option (OnError EX Empty E))
    (cdflt : OnError EX BI E) (conErrOpt : Option (OnError EX BI E))
    (onErr : OnError EX Empty E) (input : BI) :
    (∀ e, makeRefinedTypeFactory (guaranteeOfRule rule reason descr errOf)
        dflt input onErrOpt = Except.error e →
      rule input = false ∧ (onErrOpt.getD dflt) reason descr (errOf input) = Except.error e) ∧
    (∀ e, makeCoercedTypeFactory (coercionOfRule rule reason descr errOf)
        cdflt input conErrOpt = Except.error e →
      rule input = false ∧ (conErrOpt.getD cdflt) reason descr (errOf input) = Except.error e) ∧
    (∀ e, RefinedType.make input (guaranteeOfRule rule reason descr errOf) onErr
        = Except.error e →
      rule input = false ∧ onErr reason descr (errOf input) = Except.error e) := by
  refine ⟨fun e herr => ?_, fun e herr => ?_, fun e herr => ?_⟩
  · by_cases h : rule input = true
    · simp [makeRefinedTypeFactory, guaranteeOfRule, h] at herr
    · rw [Bool.not_eq_true] at h
      refine ⟨h, ?_⟩
      simp only [makeRefinedTypeFactory, guaranteeOfRule, h, Bool.false_eq_true,
        if_false] at herr
      cases hcall : (onErrOpt.getD dflt) reason descr (errOf input) with
      | error e2 =>
        rw [hcall] at herr
        simpa [Except.map] using herr
      | ok x => exact x.elim
  · by_cases h : rule input = true
    · simp [makeCoercedTypeFactory, coercionOfRule, h] at herr
    · rw [Bool.not_eq_true] at h
      refine ⟨h, ?_⟩
      simp only [makeCoercedTypeFactory, coercionOfRule, h, Bool.false_eq_true,
        if_false] at herr
      cases hcall : (conErrOpt.getD cdflt) reason descr (errOf input) with
      | error e2 =>
        rw [hcall] at herr
        simpa using herr
      | ok x =>
        rw [hcall] at herr
        simp at herr
  · by_cases h : rule input = true
    · simp [RefinedType.make, guaranteeOfRule, h] at herr
    · rw [Bool.not_eq_true] at h
      refine ⟨h, ?_⟩
      simp only [RefinedType.make, guaranteeOfRule, h, Bool.false_eq_true,
        if_false] at herr
      cases hcall : onErr reason descr (errOf input) with
      | error e2 =>
        rw [hcall] at herr
        simpa [Except.map] using herr
      | ok x => exact x.elim

theorem C8_witness :
    ((fun n : Nat => decide (n < 10)) 42 = false ∧
      (fun (_ : JsSymbol) (_ : String) (_ : Unit) =>
        (Except.error "boom" : Except String Empty)) "reason" "descr" ()
        = Except.error "boom") ∧
    ((fun n : Nat => decide (n < 10)) 42 = false ∧
      (fun (_ : JsSymbol) (_ : String) (_ : Unit) =>
        (Except.error "boom2" : Except String Nat)) "reason" "descr" ()
        = Except.error "boom2") ∧
    ((fun n : Nat => decide (n < 10)) 42 = false ∧
      (fun (_ : JsSymbol) (_ : String) (_ : Unit) =>
        (Except.error "boom3" : Except String Empty)) "reason" "descr" ()
        = Except.error "boom3") :=
  ⟨(C8_errors_come_only_from_handler (fun n => decide (n < 10)) "reason" "descr"
      (fun _ => ()) (fun _ _ _ => Except.error "boom") none
      (fun _ _ _ => Except.error "boom2") none
      (fun _ _ _ => Except.error "boom3") 42).1 "boom" rfl,
   (C8_errors_come_only_from_handler (fun n => decide (n < 10)) "reason" "descr"
      (fun _ => ()) (fun _ _ _ => Except.error "boom") none
      (fun _ _ _ => Except.error "boom2") none
      (fun _ _ _ => Except.error "boom3") 42).2.1 "boom2" rfl,
   (C8_errors_come_only_from_handler (fun n => decide (n < 10)) "reason" "descr"
      (fun _ => ()) (fun _ _ _ => Except.error "boom") none
      (fun _ _ _ => Except.error "boom2") none
      (fun _ _ _ => Except.error "boom3") 42).2.2 "boom3" rfl⟩

/-- C9: the `RefinedType` constructor is atomic with respect to failure:
it runs the DataGuarantee before storing anything, so if the guarantee
raises then no object is produced (the raise propagates unchanged), and
if the guarantee returns then the constructed object stores exactly the
constructor's input, which `valueOf()` returns. -/
theorem C9_refined_type_construction_atomic {T EX E : Type} (input : T)
    (mustBe : DataGuarantee T EX E) (onErr : OnError EX Empty E) :
    (∀ e, mustBe input onErr = Except.error e →
      RefinedType.make input mustBe onErr = Except.error e) ∧
    (mustBe input onErr = Except.ok () →
      RefinedType.make input mustBe onErr = Except.ok (RefinedType.mk input) ∧
      (RefinedType.mk input).valueOf = input) := by
  constructor
  · intro e herr
    simp [RefinedType.make, herr]
  · intro hok
    exact ⟨by simp [RefinedType.make, hok], rfl⟩

theorem C9_witness :
    (@RefinedType.make Nat Unit String 7
        (fun _ onError => (onError "r" "d" ()).map Empty.elim)
        (fun _ _ _ => Except.error "raised") = Except.error "raised") ∧
    (@RefinedType.make Nat Unit String 7 (fun _ _ => Except.ok ())
        (fun _ _ _ => Except.error "raised") = Except.ok (RefinedType.mk 7) ∧
      (RefinedType.mk 7).valueOf = 7) :=
  ⟨(C9_refined_type_construction_atomic 7
      (fun _ onError => (onError "r" "d" ()).map Empty.elim)
      (fun _ _ _ => Except.error "raised")).1 "raised" rfl,
   (C9_refined_type_construction_atomic 7 (fun _ _ => Except.ok ())
      (fun _ _ _ => Except.error "raised")).2 rfl⟩

/-- C10: for every `CoercedNumber` instance and every hint string,
`Symbol.toPrimitive` returns the decimal string rendering of the wrapped
number when the hint is "string", and returns the wrapped number itself
unchanged for every other hint (including "number" and "default"). -/
theorem C10_coerced_number_to_primitive (c : CoercedNumber) (hint : String) :
    (hint = "string" → c.toPrimitive hint = JsPrimitive.str (toString c.value)) ∧
    (hint ≠ "string" → c.toPrimitive hint = JsPrimitive.num c.value) := by
  constructor
  · intro h
    simp [CoercedNumber.toPrimitive, h]
  · intro h
    simp [CoercedNumber.toPrimitive, h]

theorem C10_witness :
    ((CoercedNumber.mk 42).toPrimitive "string" = JsPrimitive.str (toString (42 : Int))) ∧
    ((CoercedNumber.mk 42).toPrimitive "number" = JsPrimitive.num 42) ∧
    ((CoercedNumber.mk 42).toPrimitive "default" = JsPrimitive.num 42) :=
  ⟨(C10_coerced_number_to_primitive (CoercedNumber.mk 42) "string").1 rfl,
   (C10_coerced_number_to_primitive (CoercedNumber.mk 42) "number").2 (by decide),
   (C10_coerced_number_to_primitive (CoercedNumber.mk 42) "default").2 (by decide)⟩

end TsValueObjects
